import Mathlib

/-
Verification of the heka-tsutils-plugins stream-processing plugins.

The development shallowly embeds the stateful plugins of the repository:
  * the dedupe filter (lua_filters/dedupe.lua, function process_message),
  * the StatsD aggregator (lua/filters/statsd_aggregator.lua,
    functions process_message and timer_event),
  * the Go OpenTSDB decoder (OpenTsdbRawDecoder.Decode),
  * the Go StatsD decoder (externals/statsd/statsd_decoder.go, Decode).

Numeric field values (Lua numbers, Go float64) are modelled as rationals,
so the arithmetic of the embedding is the exact arithmetic that the
specified formulas denote; IEEE rounding of the host languages is not
modelled.  Timestamps are integers (nanoseconds).  Lua tables keyed by
strings are modelled as association lists; where Lua iteration order is
unspecified, a fixed order is used and noted at the definition.
-/

set_option maxRecDepth 10000

namespace Heka

/-- Dynamic field value carried in a message: Heka fields hold strings,
numbers or booleans.  Numbers are modelled as rationals. -/
inductive FVal where
  | str (s : String)
  | num (q : ℚ)
  | boolean (b : Bool)
  deriving DecidableEq

/-- Rendering of a field value the way the Lua string.format %s verb prints
it when the dedupe key is built.  Lua prints integral numbers without a
decimal point; the exact text of a non-integral number only determines key
identity, never a value the claims compare. -/
def FVal.fmt : FVal → String
  | .str s => s
  | .num q => if q.den = 1 then toString q.num else toString q
  | .boolean b => if b then "true" else "false"

/-- Ordered insert for insertion sort. -/
def insertLe {α : Type} (le : α → α → Bool) (v : α) : List α → List α
  | [] => [v]
  | x :: xs => if le v x then v :: x :: xs else x :: insertLe le v xs

/-- Insertion sort, ascending with respect to le.  It models table.sort of
Lua: for a total order the sorted permutation of a list is unique up to
the placement of equal elements, and equal rationals or strings are
indistinguishable, so the choice of algorithm is immaterial. -/
def sortLe {α : Type} (le : α → α → Bool) (l : List α) : List α :=
  l.foldr (insertLe le) []

/-- Addition on the rationals, written through mkRat so that it is
kernel-computable; qAdd_eq proves it is the standard addition.  The
standard arithmetic of the rationals is marked irreducible in the
library, which blocks evaluation by decide; every arithmetic operation
of the embedding therefore goes through these wrappers. -/
def qAdd (a b : ℚ) : ℚ := mkRat (a.num * b.den + b.num * a.den) (a.den * b.den)

/-- Subtraction on the rationals, kernel-computable; see qAdd. -/
def qSub (a b : ℚ) : ℚ := mkRat (a.num * b.den - b.num * a.den) (a.den * b.den)

/-- Multiplication on the rationals, kernel-computable; see qAdd. -/
def qMul (a b : ℚ) : ℚ := mkRat (a.num * b.num) (a.den * b.den)

/-- Division on the rationals, kernel-computable; see qAdd. -/
def qDiv (a b : ℚ) : ℚ := Rat.divInt (a.num * b.den) (a.den * b.num)

/-- Negation on the rationals, kernel-computable; see qAdd. -/
def qNeg (a : ℚ) : ℚ := mkRat (-a.num) a.den

theorem qAdd_eq (a b : ℚ) : qAdd a b = a + b := (Rat.add_def' a b).symm

theorem qSub_eq (a b : ℚ) : qSub a b = a - b := (Rat.sub_def' a b).symm

theorem qMul_eq (a b : ℚ) : qMul a b = a * b := by
  rw [qMul, Rat.mul_def, Rat.normalize_eq_mkRat]

theorem qDiv_eq (a b : ℚ) : qDiv a b = a / b := (Rat.div_def' a b).symm

theorem qNeg_eq (a : ℚ) : qNeg a = -a := by
  rw [qNeg, ← Rat.neg_num, ← Rat.neg_den a, Rat.mkRat_self]

/-- Association-list update, modelling assignment to a Lua table slot:
replaces the binding when the key is present, otherwise adds it.  The
lists built here always carry distinct keys, as a Lua table does, so
replacing the first occurrence is a faithful model of the assignment. -/
def assocSet {β : Type} (l : List (String × β)) (k : String) (v : β) :
    List (String × β) :=
  match l with
  | [] => [(k, v)]
  | kv :: t => if kv.1 = k then (k, v) :: t else kv :: assocSet t k v

theorem assocSet_lookup_self {β : Type} (l : List (String × β)) (k : String)
    (v : β) : (assocSet l k v).lookup k = some v := by
  induction l with
  | nil => simp [assocSet, List.lookup]
  | cons hd tl ih =>
    by_cases h : hd.1 = k
    · simp [assocSet, h, List.lookup]
    · have hb : (k == hd.1) = false := by simp; exact fun e => h e.symm
      simp [assocSet, h, List.lookup, hb, ih]

theorem assocSet_lookup_other {β : Type} (l : List (String × β)) (k k' : String)
    (v : β) (hne : k' ≠ k) :
    (assocSet l k v).lookup k' = l.lookup k' := by
  have hb : (k' == k) = false := by simp [hne]
  induction l with
  | nil => simp [assocSet, List.lookup, hb]
  | cons hd tl ih =>
    by_cases h : hd.1 = k
    · simp [assocSet, h, List.lookup, hb]
    · simp only [assocSet, h, if_false, List.lookup]
      by_cases h' : k' = hd.1
      · simp [h']
      · have hb : (k' == hd.1) = false := by simp [h']
        simp [hb, ih]

namespace Dedupe

/-- Message as the dedupe filter sees it: the read Timestamp and the table
of all Fields.  Type, EnvVersion and Payload are copied through unchanged
by the filter and play no part in any claim, so they are not modelled. -/
structure DMsg where
  timestamp : Int
  fields : List (String × FVal)
  deriving DecidableEq

/-- Per-key stored state of the dedupe filter, one slot of the buffer
table: the last message, its variant-field values, the timestamp the
window is measured from, and whether the last ingest was suppressed. -/
structure DEntry where
  message : DMsg
  data : List (String × FVal)
  timestamp : Int
  skipped : Bool
  deriving DecidableEq

/-- Mutable globals of the dedupe filter sandbox. -/
structure DState where
  buffer : List (String × DEntry)
  dedupe_count : Nat
  buffer_size : Nat
  deriving DecidableEq

/-- Configuration read at startup by dedupe.lua. -/
structure DConfig where
  dedupe_window : Int
  variant_fields : List String
  dedupe_key : Option String
  deriving DecidableEq

/-- Fields of the message whose names are listed in variant_fields. -/
def variantsOf (cfg : DConfig) (m : DMsg) : List (String × FVal) :=
  m.fields.filter (fun kv => cfg.variant_fields.contains kv.1)

/-- Fields of the message not listed in variant_fields: the key material. -/
def invariantsOf (cfg : DConfig) (m : DMsg) : List (String × FVal) :=
  m.fields.filter (fun kv => !cfg.variant_fields.contains kv.1)

/-- Dedupe key: the precomputed key field when configured and present,
otherwise the invariant fields formatted name=value, sorted, and joined
with a colon.  The Lua uses the raw field value as a table key; the
rendered text stands in for it here. -/
def dedupeKey (cfg : DConfig) (m : DMsg) : String :=
  let invKey :=
    String.intercalate ":"
      (sortLe (fun a b => decide (a ≤ b))
        ((invariantsOf cfg m).map (fun kv => kv.1 ++ "=" ++ kv.2.fmt)))
  match cfg.dedupe_key with
  | some kf =>
    match m.fields.lookup kf with
    | some v => v.fmt
    | none => invKey
  | none => invKey

/-- Check performed over the stored entry: every variant field of the
current message must hold the value stored for it (the Lua loop walks the
current variants and compares each against the stored data table). -/
def variantsMatch (prev : DEntry) (variants : List (String × FVal)) : Prop :=
  ∀ kv ∈ variants, prev.data.lookup kv.1 = some kv.2

instance (prev : DEntry) (variants : List (String × FVal)) :
    Decidable (variantsMatch prev variants) := by
  unfold variantsMatch; infer_instance

/-- One call of process_message of dedupe.lua.  Returns the new sandbox
state and the messages injected, in order.  The source guards the whole
body with dedupe_window greater than 0 conjoined with variant_fields_str,
but a Lua string is truthy even when empty, so the guard is exactly the
window test; with the window at or below zero the call does nothing. -/
def process_message (cfg : DConfig) (st : DState) (m : DMsg) :
    DState × List DMsg :=
  if 0 < cfg.dedupe_window then
    let variants := variantsOf cfg m
    let key := dedupeKey cfg m
    match st.buffer.lookup key with
    | some prev =>
      if variantsMatch prev variants ∧
          m.timestamp - prev.timestamp < cfg.dedupe_window * 1000000000 then
        (⟨assocSet st.buffer key ⟨m, variants, prev.timestamp, true⟩,
          st.dedupe_count + 1, st.buffer_size⟩, [])
      else
        let emitPrev :=
          (¬ variantsMatch prev variants ∧ prev.skipped = true) ∨
          (prev.skipped = true ∧
            cfg.dedupe_window * 1000000000 ≤ m.timestamp - prev.timestamp)
        (⟨assocSet st.buffer key ⟨m, variants, m.timestamp, false⟩,
          st.dedupe_count, st.buffer_size⟩,
         (if emitPrev then [prev.message] else []) ++ [m])
    | none =>
      (⟨assocSet st.buffer key ⟨m, variants, m.timestamp, false⟩,
        st.dedupe_count, st.buffer_size + 1⟩, [m])
  else (st, [])

/-- Run of the filter over a list of messages, collecting every injected
message in order. -/
def runStream (cfg : DConfig) (st : DState) (ms : List DMsg) :
    DState × List DMsg :=
  ms.foldl
    (fun acc m =>
      let r := process_message cfg acc.1 m
      (r.1, acc.2 ++ r.2))
    (st, [])

/-- Configuration of the worked dedupe example: window of 3 seconds, one
variant field v, no precomputed key field. -/
def exCfg : DConfig := ⟨3, ["v"], none⟩

/-- Message of the worked dedupe example: an invariant host field and the
variant field v. -/
def exMsg (t : Int) (v : ℚ) : DMsg := ⟨t, [("host", .str "h"), ("v", .num v)]⟩

end Dedupe

namespace Codec

/-- Whitespace test of strings.Fields via unicode.IsSpace, restricted to
the ASCII space characters; the metric lines of the claims are ASCII. -/
def wsChar (c : Char) : Bool :=
  c = ' ' || c = '\t' || c = '\n' || c = '\x0b' || c = '\x0c' || c = '\r'

/-- Model of strings.Trim(s, newline): removes leading and trailing
newline characters. -/
def trimNewlines (s : String) : String :=
  ⟨((s.data.dropWhile (· = '\n')).reverse.dropWhile (· = '\n')).reverse⟩

/-- Model of strings.TrimPrefix(line, put-space): strips one leading put
keyword with its space. -/
def trimPrefixPut (s : String) : String :=
  if "put ".data.isPrefixOf s.data then ⟨s.data.drop 4⟩ else s

/-- Accumulator pass of strings.Fields: splits at runs of whitespace,
dropping empty pieces. -/
def splitWSAux : List Char → List Char → List String
  | [], acc => if acc.isEmpty then [] else [⟨acc.reverse⟩]
  | c :: cs, acc =>
    if wsChar c then
      if acc.isEmpty then splitWSAux cs []
      else ⟨acc.reverse⟩ :: splitWSAux cs []
    else splitWSAux cs (c :: acc)

/-- Model of strings.Fields. -/
def fieldsSplit (s : String) : List String :=
  splitWSAux s.data []

/-- Accumulator pass of strings.SplitN for a one-character separator;
budget counts the separators still allowed to split. -/
def splitNAux (sep : Char) : List Char → Nat → List Char → List String
  | [], _, acc => [⟨acc.reverse⟩]
  | c :: cs, budget, acc =>
    if c = sep ∧ 0 < budget then
      ⟨acc.reverse⟩ :: splitNAux sep cs (budget - 1) []
    else splitNAux sep cs budget (c :: acc)

/-- Model of strings.SplitN(s, sep, n) for a one-character separator and
positive n: at most n pieces. -/
def goSplitN (s : String) (sep : Char) (n : Nat) : List String :=
  splitNAux sep s.data (n - 1) []

/-- Optional sign at the head of a number, as strconv reads it; returns
whether the number is negative and the remaining characters. -/
def parseSign : List Char → Bool × List Char
  | '+' :: cs => (false, cs)
  | '-' :: cs => (true, cs)
  | cs => (false, cs)

/-- Value of a digit string, most significant first. -/
def natOfDigits (cs : List Char) : Nat :=
  cs.foldl (fun n c => n * 10 + (c.toNat - '0'.toNat)) 0

/-- Model of strconv.ParseInt(s, 10, 64), which strconv.Atoi also calls:
an optional sign, one or more decimal digits, and an int64 range check.
Underscore digit separators are never accepted at base 10. -/
def goParseInt (s : String) : Option Int :=
  let (neg, cs) := parseSign s.data
  if cs.isEmpty ∨ cs.any (fun c => !c.isDigit) then none
  else
    let v : Int := if neg then -(natOfDigits cs : Int) else natOfDigits cs
    if v < -(2 ^ 63) ∨ 2 ^ 63 - 1 < v then none else some v

/-- Model of strconv.ParseFloat for the decimal forms the repository
feeds it: an optional sign, digits with an optional fractional part (at
least one digit overall), and an optional decimal exponent.  The value is
kept exactly as a rational.  The special Inf and NaN spellings, hexadecimal
floats, digit-group underscores and the overflow-to-error behaviour of Go
are outside the model; no metric line of the spec uses them. -/
def goParseFloat (s : String) : Option ℚ :=
  let (neg, cs0) := parseSign s.data
  let ip := cs0.takeWhile (fun c => c.isDigit)
  let cs1 := cs0.drop ip.length
  let fp :=
    match cs1 with
    | '.' :: r => r.takeWhile (fun c => c.isDigit)
    | _ => []
  let cs2 :=
    match cs1 with
    | '.' :: r => r.drop fp.length
    | _ => cs1
  if ip.isEmpty ∧ fp.isEmpty then none
  else
    let mant : ℚ :=
      qAdd (Rat.ofInt (natOfDigits ip))
        (Rat.divInt (natOfDigits fp) ((10 : Int) ^ fp.length))
    let signed : ℚ := if neg then qNeg mant else mant
    match cs2 with
    | [] => some signed
    | e :: r =>
      if e = 'e' ∨ e = 'E' then
        let (eneg, r1) := parseSign r
        let ed := r1.takeWhile (fun c => c.isDigit)
        if ed.isEmpty ∨ ¬ (r1.drop ed.length).isEmpty then none
        else some (if eneg then qDiv signed (Rat.ofInt ((10 : Int) ^ natOfDigits ed))
                   else qMul signed (Rat.ofInt ((10 : Int) ^ natOfDigits ed)))
      else none

/-- Value carried by a decoded OpenTSDB record: the decoder prefers the
integer reading of the value token and falls back to float. -/
inductive TVal where
  | ival (n : Int)
  | fval (q : ℚ)
  deriving DecidableEq

/-- Record produced by OpenTsdbRawDecoder.Decode: Timestamp in
nanoseconds, the Metric and Value fields, and one field per tag. -/
structure TsdbRec where
  timestamp : Int
  metric : String
  value : TVal
  tags : List (String × String)
  deriving DecidableEq

/-- Outcome of OpenTsdbRawDecoder.Decode: a Go error return (the parse
failures the claims call ParseError), a Go runtime index-out-of-range
panic, or a decoded record. -/
inductive TsdbResult where
  | parseErr
  | indexPanic
  | ok (r : TsdbRec)
  deriving DecidableEq

/-- Integer-preferring read of the value token, as the decoder performs
it: strconv.ParseInt first, strconv.ParseFloat on failure. -/
def tokValue (s : String) : Option TVal :=
  match goParseInt s with
  | some n => some (.ival n)
  | none =>
    match goParseFloat s with
    | some q => some (.fval q)
    | none => none

/-- Tag loop of the decoder.  Each tag token is split on the first equals
sign with strings.SplitN(tag, eq, 2) and the Go code indexes element 1 of
the result unconditionally; when the token holds no equals sign that
slice has one element and the access panics, modelled as none. -/
def parseTags (tagPfx : String) : List String → Option (List (String × String))
  | [] => some []
  | t :: ts =>
    let x := goSplitN t '=' 2
    match x.get? 1 with
    | none => none
    | some v =>
      match parseTags tagPfx ts with
      | none => none
      | some rest => some ((tagPfx ++ x.headD "", v) :: rest)

/-- Line under scrutiny after the payload preprocessing of the decoder:
trailing and leading newlines trimmed, one leading put stripped. -/
def opentsdbLine (payload : String) : String :=
  trimPrefixPut (trimNewlines payload)

/-- Model of OpenTsdbRawDecoder.Decode.  The length bound compares byte
length in Go; character count coincides for the ASCII lines at issue.
Field insertion (message.NewField) cannot fail for the string and numeric
values used, so it is not a failure source. -/
def decodeOpenTSDB (tagPfx : String) (payload : String) : TsdbResult :=
  let line := opentsdbLine payload
  if 1024 ≤ line.length then .parseErr
  else
    let fs := fieldsSplit line
    if fs.length < 3 then .parseErr
    else
      match goParseInt (fs.getD 1 "") with
      | none => .parseErr
      | some unixTime =>
        match tokValue (fs.getD 2 "") with
        | none => .parseErr
        | some v =>
          match parseTags tagPfx (fs.drop 3) with
          | none => .indexPanic
          | some tags =>
            .ok ⟨unixTime * 1000000000, fs.getD 0 "", v, tags⟩

/-- Failure condition of the decoder as implemented: length at or above
1024, fewer than three tokens, non-integer timestamp token, or a value
token that parses neither as integer nor as float. -/
def opentsdbFailCond (payload : String) : Prop :=
  1024 ≤ (opentsdbLine payload).length ∨
  (fieldsSplit (opentsdbLine payload)).length < 3 ∨
  goParseInt ((fieldsSplit (opentsdbLine payload)).getD 1 "") = none ∨
  tokValue ((fieldsSplit (opentsdbLine payload)).getD 2 "") = none

instance (payload : String) : Decidable (opentsdbFailCond payload) := by
  unfold opentsdbFailCond; infer_instance

/-- Failure condition in the exact words of the claim, for comparison
with the implemented condition: the claim says the line must EXCEED the
1024-byte bound, a strict comparison. -/
def opentsdbClaimFailCond (payload : String) : Prop :=
  1024 < (opentsdbLine payload).length ∨
  (fieldsSplit (opentsdbLine payload)).length < 3 ∨
  goParseInt ((fieldsSplit (opentsdbLine payload)).getD 1 "") = none ∨
  tokValue ((fieldsSplit (opentsdbLine payload)).getD 2 "") = none

instance (payload : String) : Decidable (opentsdbClaimFailCond payload) := by
  unfold opentsdbClaimFailCond; infer_instance

/-- Record produced by StatsdDecoder.Decode. -/
structure StatsdRec where
  metric : String
  value : ℚ
  modifier : String
  sampling : ℚ
  deriving DecidableEq

/-- Model of StatsdDecoder.Decode of the Go decoder: split the bucket
name at the first colon, split the remainder at up to two pipes, parse
the value as float, admit only the four modifiers, and read an optional
at-prefixed sample rate from a third segment, defaulting to 1.  The
discarded fmt.Errorf result in the sample-rate branch of the source does
not change the outcome: err is already non-nil there, so the named error
return is taken either way. -/
def decodeStatsD (payload : String) : Option StatsdRec :=
  let line := trimNewlines payload
  if line.length = 0 then none
  else
    let parts := goSplitN line ':' 2
    if parts.length ≠ 2 then none
    else
      let rest := goSplitN (parts.getD 1 "") '|' 3
      if rest.length < 2 then none
      else
        match goParseFloat (rest.getD 0 "") with
        | none => none
        | some v =>
          let md := rest.getD 1 ""
          if md = "g" ∨ md = "c" ∨ md = "ms" ∨ md = "s" then
            if rest.length = 3 ∧ "@".data.isPrefixOf (rest.getD 2 "").data then
              match goParseFloat ⟨(rest.getD 2 "").data.drop 1⟩ with
              | none => none
              | some rate => some ⟨parts.getD 0 "", v, md, rate⟩
            else some ⟨parts.getD 0 "", v, md, 1⟩
          else none

theorem dropWhile_replicate_neg {α : Type} (p : α → Bool) (a : α)
    (h : p a = false) (n : Nat) :
    List.dropWhile p (List.replicate n a) = List.replicate n a := by
  cases n with
  | zero => rfl
  | succ n => simp [List.replicate_succ, List.dropWhile_cons, h]

theorem trimNewlines_replicate_a (n : Nat) :
    trimNewlines ⟨List.replicate n 'a'⟩ = ⟨List.replicate n 'a'⟩ := by
  simp only [trimNewlines]
  rw [dropWhile_replicate_neg _ _ (by decide), List.reverse_replicate,
    dropWhile_replicate_neg _ _ (by decide), List.reverse_replicate]

theorem opentsdbLine_replicate_a (n : Nat) :
    opentsdbLine ⟨List.replicate (n + 1) 'a'⟩ = ⟨List.replicate (n + 1) 'a'⟩ := by
  have hpre : ("put ".data.isPrefixOf
      ((⟨List.replicate (n + 1) 'a'⟩ : String).data)) = false := by
    show ("put ".data.isPrefixOf (List.replicate (n + 1) 'a')) = false
    rw [List.replicate_succ]
    simp [List.isPrefixOf]
  rw [opentsdbLine, trimNewlines_replicate_a, trimPrefixPut,
    if_neg (by simp [hpre])]

theorem splitNAux_zero_length (sep : Char) (cs acc : List Char) :
    (splitNAux sep cs 0 acc).length = 1 := by
  induction cs generalizing acc with
  | nil => simp [splitNAux]
  | cons c cs ih => simp [splitNAux, ih]

theorem splitNAux_one_length (sep : Char) (cs acc : List Char) :
    (splitNAux sep cs 1 acc).length = if sep ∈ cs then 2 else 1 := by
  induction cs generalizing acc with
  | nil => simp [splitNAux]
  | cons c cs ih =>
    by_cases h : c = sep
    · simp [splitNAux, h, splitNAux_zero_length]
    · have h' : ¬ sep = c := fun e => h e.symm
      simp [splitNAux, h, ih, h']

theorem splitNAux_not_mem_length (sep : Char) (cs : List Char)
    (b : Nat) (acc : List Char) (h : sep ∉ cs) :
    (splitNAux sep cs b acc).length = 1 := by
  induction cs generalizing acc with
  | nil => simp [splitNAux]
  | cons c cs ih =>
    simp only [List.mem_cons, not_or] at h
    have hc : ¬ c = sep := fun e => h.1 e.symm
    simp [splitNAux, hc, ih _ h.2]

theorem goSplitN_two_length (s : String) (sep : Char) :
    (goSplitN s sep 2).length = if sep ∈ s.data then 2 else 1 :=
  splitNAux_one_length sep s.data []

theorem tagSplit_get1_none (t : String) :
    ((goSplitN t '=' 2).get? 1 = none) ↔ '=' ∉ t.data := by
  rw [List.get?_eq_none]
  rw [goSplitN_two_length]
  by_cases h : '=' ∈ t.data <;> simp [h]

theorem parseTags_some_iff (tagPfx : String) (l : List String) :
    (∃ ts, parseTags tagPfx l = some ts) ↔ ∀ t ∈ l, '=' ∈ t.data := by
  induction l with
  | nil => simp [parseTags]
  | cons t ts ih =>
    simp only [parseTags, List.mem_cons]
    cases hg : (goSplitN t '=' 2).get? 1 with
    | none =>
      have hmem := (tagSplit_get1_none t).mp hg
      constructor
      · rintro ⟨ts', h⟩; exact absurd h (by simp)
      · intro hall
        exact absurd (hall t (Or.inl rfl)) hmem
    | some v =>
      have hc : '=' ∈ t.data := by
        by_contra hcon
        rw [(tagSplit_get1_none t).mpr hcon] at hg
        exact Option.noConfusion hg
      cases hp : parseTags tagPfx ts with
      | none =>
        constructor
        · rintro ⟨ts', h⟩; exact absurd h (by simp)
        · intro hall
          obtain ⟨ts', h⟩ := ih.mpr (fun u hu => hall u (Or.inr hu))
          rw [hp] at h
          exact absurd h (by simp)
      | some rest =>
        constructor
        · rintro - u hu
          rcases hu with rfl | hu
          · exact hc
          · exact ih.mp ⟨rest, hp⟩ u hu
        · intro _; exact ⟨_, rfl⟩

end Codec

namespace Agg

/-- Configuration of statsd_aggregator.lua after startup normalisation:
the global prefix already carries its trailing dot (lines 109 to 111 of
the source), and the percentiles option is already split at the commas,
each entry kept both as the text used in stat names and as its numeric
value (the Lua keeps the matched substrings and coerces them to numbers
inside the arithmetic). -/
structure AggConfig where
  prefixGlobal : String
  percentiles : List (String × ℚ)
  send_idle : Bool
  calc_rates : Bool
  deriving DecidableEq

/-- Accumulator stored in Fields of a bucket message: a raw sample list
for timers, the last value for gauges, a set of seen values for sets and
a running sum for counters.  The Lua stores all four shapes in the one
dynamically typed Value slot and dispatches on the incoming modifier; an
update whose modifier disagrees with the stored shape is a Lua runtime
type error (or silent corruption), flagged as an open question by the
spec and exercised by no claim; such updates are modelled as none. -/
inductive BVal where
  | timer (samples : List ℚ)
  | gauge (v : ℚ)
  | setv (vals : List ℚ)
  | counter (sum : ℚ)
  deriving DecidableEq

/-- Per-metric bucket: the message template created on first observation,
holding the sampling rate and modifier of that first observation, the
prefixed metric name, and the accumulator. -/
structure Bucket where
  sampling : ℚ
  modifier : String
  metric : String
  value : BVal
  deriving DecidableEq

/-- Mutable globals of the aggregator sandbox. -/
structure AggState where
  buckets : List (String × Bucket)
  lastTime : Int
  metrics_received : Nat
  deriving DecidableEq

/-- One ingested observation, the four fields the filter reads. -/
structure Obs where
  metric : String
  value : ℚ
  modifier : String
  sampling : ℚ
  deriving DecidableEq

/-- Set insertion as assignment of true into a Lua table slot keyed by
the value: a duplicate is a no-op, insertion order is otherwise kept. -/
def setInsert (l : List ℚ) (v : ℚ) : List ℚ :=
  if v ∈ l then l else l ++ [v]

/-- Bucket created on first observation for a metric (lines 132 to 154):
the modifier chooses the accumulator shape and the name prefix; every
modifier other than ms, g and s makes a counter. -/
def mkBucket (cfg : AggConfig) (o : Obs) : Bucket :=
  if o.modifier = "ms" then
    ⟨o.sampling, o.modifier, cfg.prefixGlobal ++ "timers." ++ o.metric,
      .timer [o.value]⟩
  else if o.modifier = "g" then
    ⟨o.sampling, o.modifier, cfg.prefixGlobal ++ "gauges." ++ o.metric,
      .gauge o.value⟩
  else if o.modifier = "s" then
    ⟨o.sampling, o.modifier, cfg.prefixGlobal ++ "sets." ++ o.metric,
      .setv [o.value]⟩
  else
    ⟨o.sampling, o.modifier, cfg.prefixGlobal ++ "counters." ++ o.metric,
      .counter (qMul o.value (qDiv 1 o.sampling))⟩

/-- Update of an existing bucket (lines 156 to 167), dispatching on the
modifier of the incoming observation.  A gauge assignment overwrites the
slot whatever it held, as the Lua assignment does; the other updates need
the matching shape and are none on mismatch (see BVal). -/
def updBucket (b : Bucket) (o : Obs) : Option Bucket :=
  if o.modifier = "ms" then
    match b.value with
    | .timer s => some { b with value := .timer (s ++ [o.value]) }
    | _ => none
  else if o.modifier = "g" then
    some { b with value := .gauge o.value }
  else if o.modifier = "s" then
    match b.value with
    | .setv s => some { b with value := .setv (setInsert s o.value) }
    | _ => none
  else
    match b.value with
    | .counter s =>
      some { b with value := .counter (qAdd s (qMul o.value (qDiv 1 o.sampling))) }
    | _ => none

/-- One call of process_message of the aggregator: create or update the
bucket of the metric and count the observation. -/
def process_message (cfg : AggConfig) (st : AggState) (o : Obs) :
    Option AggState :=
  match st.buckets.lookup o.metric with
  | none =>
    some ⟨(o.metric, mkBucket cfg o) :: st.buckets, st.lastTime,
      st.metrics_received + 1⟩
  | some b =>
    match updBucket b o with
    | none => none
    | some b' =>
      some ⟨assocSet st.buckets o.metric b', st.lastTime,
        st.metrics_received + 1⟩

/-- Ingestion of a list of observations in order. -/
def ingestAll (cfg : AggConfig) : AggState → List Obs → Option AggState
  | st, [] => some st
  | st, o :: os =>
    match process_message cfg st o with
    | none => none
    | some st' => ingestAll cfg st' os

/-- Floor of a rational, computed as floor division of numerator by
denominator; ratFloor_eq identifies it with the mathematical floor used
by math.floor of Lua. -/
def ratFloor (q : ℚ) : Int := Int.fdiv q.num q.den

theorem ratFloor_eq (q : ℚ) : ratFloor q = Int.floor q := by
  rw [ratFloor, Rat.floor_def]
  exact Int.fdiv_eq_ediv _ (Int.ofNat_nonneg _)

/-- One-based list read, as Lua indexes its arrays; out of range gives 0,
which no claim exercises. -/
def get1 (l : List ℚ) (i : Int) : ℚ := l.getD (i - 1).toNat 0

/-- Running cumulative sums with carried cumulator, as the loop of lines
191 to 196 builds cumVals. -/
def cumFrom (c : ℚ) : List ℚ → List ℚ
  | [] => []
  | v :: vs => qAdd v c :: cumFrom (qAdd v c) vs

/-- Cumulative-sum array over the sorted samples. -/
def cumVals (l : List ℚ) : List ℚ := cumFrom 0 l

/-- Ascending sort of the samples, as table.sort. -/
def sortQ (l : List ℚ) : List ℚ := sortLe (fun a b => decide (a ≤ b)) l

/-- Index of lines 208 and 209: inc equals count minus
floor(((100 - pct) / 100) * count + 0.5), the round-half-up rank. -/
def pctInc (n : Nat) (p : ℚ) : Int :=
  (n : Int) - ratFloor (qAdd (qMul (qDiv (qSub 100 p) 100) (Rat.ofInt n)) (mkRat 1 2))

/-- Percentile statistics of one configured percentile (lines 207 to
216): emitted only when inc is positive, with the textual percentile in
the stat names. -/
def pctEmits (name : String) (n : Nat) (ts cum : List ℚ)
    (pct : String × ℚ) : List (String × ℚ) :=
  let inc := pctInc n pct.2
  if 0 < inc then
    [(name ++ ".mean_" ++ pct.1, qDiv (get1 cum inc) (Rat.ofInt inc)),
     (name ++ ".sum_" ++ pct.1, get1 cum inc),
     (name ++ ".upper_" ++ pct.1, get1 ts inc)]
  else []

/-- Elapsed flush interval in seconds: elapsedTime / 1e9. -/
def elapsedSecs (elapsed : Int) : ℚ := qDiv (Rat.ofInt elapsed) 1000000000

/-- Messages injected for one bucket during timer_event, as metric-name
and value pairs.  The Lua walks its stats table with pairs, whose order
is unspecified; a fixed order is used here, base statistics first, then
the rate, then the percentile statistics in configured order.  A bucket
whose modifier is none of ms, c, s, g matches no branch and emits
nothing, exactly as in the source. -/
def flushBucketEmits (cfg : AggConfig) (elapsed : Int) (b : Bucket) :
    List (String × ℚ) :=
  if b.modifier = "ms" then
    match b.value with
    | .timer samples =>
      if 0 < samples.length then
        let ts := sortQ samples
        let n := samples.length
        let cum := cumVals ts
        let sum := cum.getLastD 0
        [(b.metric ++ ".count", Rat.ofInt n),
         (b.metric ++ ".lower", get1 ts 1),
         (b.metric ++ ".upper", get1 ts n),
         (b.metric ++ ".sum", sum),
         (b.metric ++ ".mean", qDiv sum (Rat.ofInt n))] ++
        (if cfg.calc_rates then
          [(b.metric ++ ".rate", qDiv (Rat.ofInt n) (elapsedSecs elapsed))]
         else []) ++
        (if 1 < n ∧ 0 < cfg.percentiles.length then
          cfg.percentiles.flatMap (pctEmits b.metric n ts cum)
         else [])
      else []
    | _ => []
  else if b.modifier = "c" then
    match b.value with
    | .counter sum =>
      [(b.metric ++ ".count", sum)] ++
      (if cfg.calc_rates then
        [(b.metric ++ ".rate", qDiv sum (elapsedSecs elapsed))]
       else [])
    | _ => []
  else if b.modifier = "s" then
    match b.value with
    | .setv vals => [(b.metric, Rat.ofInt vals.length)]
    | _ => []
  else if b.modifier = "g" then
    match b.value with
    | .gauge v => [(b.metric, v)]
    | _ => []
  else []

/-- Bucket state left behind by timer_event when send_idle_stats is true:
the timer sample list and the set are emptied, the counter sum is reset
to zero, the gauge keeps its value (lines 227 to 230, 245, 254; the
gauge branch has no reset).  When send_idle_stats is false the whole
bucket table is dropped at the end of the flush, so the in-place
mutations the Lua leaves in that case are dead state and are not
modelled bucket by bucket. -/
def idleResetBucket (b : Bucket) : Bucket :=
  if b.modifier = "ms" then
    match b.value with
    | .timer _ => { b with value := .timer [] }
    | _ => b
  else if b.modifier = "c" then
    { b with value := .counter 0 }
  else if b.modifier = "s" then
    { b with value := .setv [] }
  else b

/-- One call of timer_event of the aggregator: a no-op when no time has
elapsed since the last flush; otherwise every bucket is flushed, the two
self-statistics are appended, lastTime is advanced, and the bucket table
is either idle-reset per kind or dropped entirely. -/
def timer_event (cfg : AggConfig) (st : AggState) (ns : Int) :
    AggState × List (String × ℚ) :=
  let elapsed := ns - st.lastTime
  if elapsed = 0 then (st, [])
  else
    let ems := (st.buckets.map (fun kv => flushBucketEmits cfg elapsed kv.2)).flatten
    let summaries :=
      [(cfg.prefixGlobal ++ "numStats", Rat.ofInt st.buckets.length),
       (cfg.prefixGlobal ++ "metrics_received", Rat.ofInt st.metrics_received)]
    (⟨if cfg.send_idle then
        st.buckets.map (fun kv => (kv.1, idleResetBucket kv.2))
      else [], ns, st.metrics_received⟩,
     ems ++ summaries)

theorem lookup_map_value {β γ : Type} (l : List (String × β)) (f : β → γ)
    (k : String) :
    (l.map (fun kv => (kv.1, f kv.2))).lookup k = (l.lookup k).map f := by
  induction l with
  | nil => simp [List.lookup]
  | cons hd tl ih =>
    by_cases h : k = hd.1
    · simp [List.lookup, h]
    · have hb : (k == hd.1) = false := by simp [h]
      simp [List.lookup, hb, ih]

theorem mem_timer_event_of_mem_bucket (cfg : AggConfig) (st : AggState)
    (ns : Int) (m : String) (b : Bucket) (pr : String × ℚ)
    (hmem : (m, b) ∈ st.buckets) (hns : ns ≠ st.lastTime)
    (hpr : pr ∈ flushBucketEmits cfg (ns - st.lastTime) b) :
    pr ∈ (timer_event cfg st ns).2 := by
  simp only [timer_event]
  rw [if_neg (sub_ne_zero_of_ne hns)]
  refine List.mem_append_left _ ?_
  exact List.mem_flatten_of_mem
    (List.mem_map_of_mem (fun kv => flushBucketEmits cfg (ns - st.lastTime) kv.2)
      hmem) hpr

end Agg

open Agg in
/-- Claim C5: a Counter bucket is created with value times the reciprocal
sample rate, every further counter observation adds value times the
reciprocal sample rate to the running sum, and the flush emits the count
statistic carrying that sum; in particular five ingests of value 1 at
sample rate 1 flush name.count equal 5, and one ingest of value 1 at
sample rate one tenth flushes name.count equal 10. -/
theorem agg_counter_sum :
    (∀ (cfg : AggConfig) (st : AggState) (o : Obs),
      st.buckets.lookup o.metric = none →
      ¬ (o.modifier = "ms" ∨ o.modifier = "g" ∨ o.modifier = "s") →
      process_message cfg st o =
        some ⟨(o.metric, mkBucket cfg o) :: st.buckets, st.lastTime,
          st.metrics_received + 1⟩ ∧
      (mkBucket cfg o).value = .counter (o.value * (1 / o.sampling))) ∧
    (∀ (cfg : AggConfig) (st : AggState) (o : Obs) (b : Bucket) (s0 : ℚ),
      st.buckets.lookup o.metric = some b →
      b.value = .counter s0 →
      ¬ (o.modifier = "ms" ∨ o.modifier = "g" ∨ o.modifier = "s") →
      ∃ st', process_message cfg st o = some st' ∧
        st'.buckets.lookup o.metric =
          some { b with value := .counter (s0 + o.value * (1 / o.sampling)) } ∧
        st'.metrics_received = st.metrics_received + 1) ∧
    (∀ (cfg : AggConfig) (st : AggState) (ns : Int) (m : String) (b : Bucket)
      (s : ℚ), (m, b) ∈ st.buckets → b.modifier = "c" → b.value = .counter s →
      ns ≠ st.lastTime →
      (b.metric ++ ".count", s) ∈ (timer_event cfg st ns).2) ∧
    (ingestAll ⟨"", [], false, false⟩ ⟨[], 0, 0⟩
        (List.replicate 5 ⟨"m", 1, "c", 1⟩) =
      some ⟨[("m", ⟨1, "c", "counters.m", .counter 5⟩)], 0, 5⟩ ∧
     (timer_event ⟨"", [], false, false⟩
        ⟨[("m", ⟨1, "c", "counters.m", .counter 5⟩)], 0, 5⟩ 10000000000).2 =
      [("counters.m.count", 5), ("numStats", 1), ("metrics_received", 5)]) ∧
    (ingestAll ⟨"", [], false, false⟩ ⟨[], 0, 0⟩ [⟨"m", 1, "c", mkRat 1 10⟩] =
      some ⟨[("m", ⟨mkRat 1 10, "c", "counters.m", .counter 10⟩)], 0, 1⟩ ∧
     (timer_event ⟨"", [], false, false⟩
        ⟨[("m", ⟨mkRat 1 10, "c", "counters.m", .counter 10⟩)], 0, 1⟩
        10000000000).2 =
      [("counters.m.count", 10), ("numStats", 1), ("metrics_received", 1)]) := by
  refine ⟨?_, ?_, ?_, by constructor <;> decide, by constructor <;> decide⟩
  · intro cfg st o hnone hmod
    push_neg at hmod
    constructor
    · simp only [process_message, hnone]
    · rw [mkBucket, if_neg hmod.1, if_neg hmod.2.1, if_neg hmod.2.2]
      rw [qMul_eq, qDiv_eq]
  · intro cfg st o b s0 hsome hval hmod
    push_neg at hmod
    refine ⟨⟨assocSet st.buckets o.metric
      { b with value := .counter (qAdd s0 (qMul o.value (qDiv 1 o.sampling))) },
      st.lastTime, st.metrics_received + 1⟩, ?_, ?_, rfl⟩
    · simp only [process_message, hsome, updBucket,
        if_neg hmod.1, if_neg hmod.2.1, if_neg hmod.2.2, hval]
    · rw [qAdd_eq, qMul_eq, qDiv_eq]
      exact assocSet_lookup_self _ _ _
  · intro cfg st ns m b s hmem hmod hval hns
    refine mem_timer_event_of_mem_bucket cfg st ns m b _ hmem hns ?_
    rw [flushBucketEmits, if_neg (by rw [hmod]; decide), if_pos hmod, hval]
    exact List.mem_append_left _ (List.mem_cons_self _ _)

open Agg in
/-- Witness for claim C5 at concrete inputs: creation, update and flush
emission of a counter with sample rate 1. -/
theorem agg_counter_sum_witness :
    (process_message ⟨"", [], false, false⟩ ⟨[], 0, 0⟩ ⟨"m", 1, "c", 1⟩ =
      some ⟨[("m", mkBucket ⟨"", [], false, false⟩ ⟨"m", 1, "c", 1⟩)], 0,
        0 + 1⟩ ∧
     (mkBucket ⟨"", [], false, false⟩ ⟨"m", 1, "c", 1⟩).value =
       .counter (1 * (1 / 1))) ∧
    (∃ st', process_message ⟨"", [], false, false⟩
        ⟨[("m", ⟨1, "c", "counters.m", .counter 5⟩)], 0, 5⟩
        ⟨"m", 2, "c", 1⟩ = some st' ∧
      st'.buckets.lookup "m" =
        some ⟨1, "c", "counters.m", .counter (5 + 2 * (1 / 1))⟩ ∧
      st'.metrics_received = 5 + 1) ∧
    ("counters.m.count", (5 : ℚ)) ∈
      (timer_event ⟨"", [], false, false⟩
        ⟨[("m", ⟨1, "c", "counters.m", .counter 5⟩)], 0, 5⟩ 10000000000).2 := by
  refine ⟨agg_counter_sum.1 _ _ _ (by decide) (by decide), ?_, ?_⟩
  · exact agg_counter_sum.2.1 ⟨"", [], false, false⟩
      ⟨[("m", ⟨1, "c", "counters.m", .counter 5⟩)], 0, 5⟩
      ⟨"m", 2, "c", 1⟩ ⟨1, "c", "counters.m", .counter 5⟩ 5
      (by decide) (by decide) (by decide)
  · exact agg_counter_sum.2.2.1 ⟨"", [], false, false⟩
      ⟨[("m", ⟨1, "c", "counters.m", .counter 5⟩)], 0, 5⟩ 10000000000
      "m" ⟨1, "c", "counters.m", .counter 5⟩ 5
      (by decide) (by decide) (by decide) (by decide)

open Agg in
/-- Claim C4: a flush that observes elapsed time (the guard of line 176
makes a flush at the very timestamp of the previous one a no-op) empties
the whole bucket table when send_idle_stats is false, with buckets then
recreated lazily by the next observation; when send_idle_stats is true it
resets each Counter sum to zero, each Timer sample list and each Set to
empty, and leaves each Gauge holding its last observed value. -/
theorem agg_flush_bucket_reset (cfg : AggConfig) (st : AggState) (ns : Int)
    (hns : ns ≠ st.lastTime) :
    (cfg.send_idle = false → (timer_event cfg st ns).1.buckets = []) ∧
    (cfg.send_idle = true →
      ∀ k b, st.buckets.lookup k = some b →
        ((b.modifier = "c" →
          (timer_event cfg st ns).1.buckets.lookup k =
            some { b with value := .counter 0 }) ∧
         (b.modifier = "ms" → ∀ smp, b.value = .timer smp →
          (timer_event cfg st ns).1.buckets.lookup k =
            some { b with value := .timer [] }) ∧
         (b.modifier = "s" →
          (timer_event cfg st ns).1.buckets.lookup k =
            some { b with value := .setv [] }) ∧
         (b.modifier = "g" →
          (timer_event cfg st ns).1.buckets.lookup k = some b))) ∧
    (∀ (st' : AggState) (o : Obs), st'.buckets.lookup o.metric = none →
      process_message cfg st' o =
        some ⟨(o.metric, mkBucket cfg o) :: st'.buckets, st'.lastTime,
          st'.metrics_received + 1⟩) := by
  refine ⟨?_, ?_, ?_⟩
  · intro hidle
    simp only [timer_event]
    rw [if_neg (sub_ne_zero_of_ne hns)]
    simp [hidle]
  · intro hidle k b hkb
    have hlook : (timer_event cfg st ns).1.buckets.lookup k =
        some (idleResetBucket b) := by
      simp only [timer_event]
      rw [if_neg (sub_ne_zero_of_ne hns)]
      simp only [hidle, if_true]
      rw [lookup_map_value, hkb]
      rfl
    refine ⟨?_, ?_, ?_, ?_⟩
    · intro hmod
      rw [hlook, idleResetBucket, if_neg (by rw [hmod]; decide), if_pos hmod]
    · intro hmod smp hval
      rw [hlook, idleResetBucket, if_pos hmod, hval]
    · intro hmod
      rw [hlook, idleResetBucket, if_neg (by rw [hmod]; decide),
        if_neg (by rw [hmod]; decide), if_pos hmod]
    · intro hmod
      rw [hlook, idleResetBucket, if_neg (by rw [hmod]; decide),
        if_neg (by rw [hmod]; decide), if_neg (by rw [hmod]; decide)]
  · intro st' o hnone
    simp only [process_message, hnone]

open Agg in
/-- Witness for claim C4: with idle stats off the flush drops the bucket
table whole; with idle stats on a counter resets to zero and a gauge
keeps its value. -/
theorem agg_flush_bucket_reset_witness :
    (timer_event ⟨"", [], false, false⟩
      ⟨[("m", ⟨1, "c", "counters.m", .counter 5⟩)], 0, 5⟩
      10000000000).1.buckets = [] ∧
    (timer_event ⟨"", [], true, false⟩
      ⟨[("m", ⟨1, "c", "counters.m", .counter 5⟩)], 0, 5⟩
      10000000000).1.buckets.lookup "m" =
      some ⟨1, "c", "counters.m", .counter 0⟩ ∧
    (timer_event ⟨"", [], true, false⟩
      ⟨[("g", ⟨1, "g", "gauges.g", .gauge 42⟩)], 0, 1⟩
      10000000000).1.buckets.lookup "g" =
      some ⟨1, "g", "gauges.g", .gauge 42⟩ := by
  refine ⟨?_, ?_, ?_⟩
  · exact (agg_flush_bucket_reset ⟨"", [], false, false⟩
      ⟨[("m", ⟨1, "c", "counters.m", .counter 5⟩)], 0, 5⟩ 10000000000
      (by decide)).1 rfl
  · exact ((agg_flush_bucket_reset ⟨"", [], true, false⟩
      ⟨[("m", ⟨1, "c", "counters.m", .counter 5⟩)], 0, 5⟩ 10000000000
      (by decide)).2.1 rfl "m" ⟨1, "c", "counters.m", .counter 5⟩
      (by decide)).1 rfl
  · exact ((agg_flush_bucket_reset ⟨"", [], true, false⟩
      ⟨[("g", ⟨1, "g", "gauges.g", .gauge 42⟩)], 0, 1⟩ 10000000000
      (by decide)).2.1 rfl "g" ⟨1, "g", "gauges.g", .gauge 42⟩
      (by decide)).2.2.2 rfl

open Agg in
/-- Claim C10: at an effective flush, a Timer bucket holding exactly one
sample emits count, lower, upper, sum and mean, plus the rate when
calculate_rates is set, followed only by the two flush summaries, and it
emits no percentile statistic for any configured percentile, even one
whose index is positive, because percentile computation requires a count
strictly greater than one (line 206 of the source). -/
theorem agg_timer_single_sample_stats (cfg : AggConfig) (m name : String)
    (smp v : ℚ) (lastT ns : Int) (mr : Nat) (s : String) (p : ℚ)
    (hns : ns ≠ lastT) (hp : (s, p) ∈ cfg.percentiles)
    (hinc : 0 < pctInc 1 p) :
    (timer_event cfg ⟨[(m, ⟨smp, "ms", name, .timer [v]⟩)], lastT, mr⟩ ns).2 =
      ([(name ++ ".count", Rat.ofInt 1), (name ++ ".lower", v),
        (name ++ ".upper", v), (name ++ ".sum", v), (name ++ ".mean", v)] ++
       (if cfg.calc_rates then
         [(name ++ ".rate", qDiv (Rat.ofInt 1) (elapsedSecs (ns - lastT)))]
        else []) ++
       [(cfg.prefixGlobal ++ "numStats", Rat.ofInt 1),
        (cfg.prefixGlobal ++ "metrics_received", Rat.ofInt mr)]) ∧
    (∀ pr ∈ flushBucketEmits cfg (ns - lastT) ⟨smp, "ms", name, .timer [v]⟩,
      pr.1 ≠ name ++ ".mean_" ++ s ∧ pr.1 ≠ name ++ ".sum_" ++ s ∧
      pr.1 ≠ name ++ ".upper_" ++ s) := by
  have hv0 : qAdd v 0 = v := by rw [qAdd_eq, add_zero]
  have hone : Rat.ofInt 1 = (1 : ℚ) := by decide
  have hmean : qDiv (qAdd v 0) (Rat.ofInt 1) = v := by
    rw [hv0, hone, qDiv_eq, div_one]
  have hb : flushBucketEmits cfg (ns - lastT) ⟨smp, "ms", name, .timer [v]⟩ =
      [(name ++ ".count", Rat.ofInt 1), (name ++ ".lower", v),
       (name ++ ".upper", v), (name ++ ".sum", v), (name ++ ".mean", v)] ++
      (if cfg.calc_rates then
        [(name ++ ".rate", qDiv (Rat.ofInt 1) (elapsedSecs (ns - lastT)))]
       else []) := by
    simp only [flushBucketEmits]
    rw [if_pos trivial, if_pos (by simp : 0 < [v].length),
      if_neg (by simp : ¬ (1 < [v].length ∧ 0 < cfg.percentiles.length)),
      List.append_nil]
    simp only [List.length_singleton, Nat.cast_one]
    rw [show sortQ [v] = [v] from rfl, show cumVals [v] = [qAdd v 0] from rfl,
      show get1 [v] 1 = v from rfl,
      show ([qAdd v 0].getLastD 0) = qAdd v 0 from rfl, hmean, hv0]
  constructor
  · simp only [timer_event]
    rw [if_neg (sub_ne_zero_of_ne hns)]
    simp only [List.map_cons, List.map_nil, List.flatten_cons,
      List.flatten_nil, List.append_nil]
    rw [hb]
    simp only [List.length_singleton, Nat.cast_one]
  · intro pr hpr
    rw [hb] at hpr
    rcases List.mem_append.mp hpr with h | h
    · simp only [List.mem_cons, List.mem_singleton, List.not_mem_nil,
        or_false] at h
      rcases h with rfl | rfl | rfl | rfl | rfl
      all_goals exact ⟨by simp [String.ext_iff], by simp [String.ext_iff],
        by simp [String.ext_iff]⟩
    · by_cases hc : cfg.calc_rates
      · rw [if_pos hc] at h
        simp only [List.mem_singleton] at h
        subst h
        exact ⟨by simp [String.ext_iff], by simp [String.ext_iff],
          by simp [String.ext_iff]⟩
      · rw [if_neg hc] at h
        exact absurd h (List.not_mem_nil pr)

open Agg in
/-- Witness for claim C10 with one sample of value 5 and percentile 90,
whose index 1 is positive and would address the single sorted sample. -/
theorem agg_timer_single_sample_stats_witness :
    (timer_event ⟨"", [("90", 90)], false, false⟩
      ⟨[("m", ⟨1, "ms", "timers.m", .timer [5]⟩)], 0, 1⟩ 10000000000).2 =
      ([("timers.m" ++ ".count", Rat.ofInt 1), ("timers.m" ++ ".lower", 5),
        ("timers.m" ++ ".upper", 5), ("timers.m" ++ ".sum", 5),
        ("timers.m" ++ ".mean", 5)] ++
       (if false then
         [("timers.m" ++ ".rate", qDiv (Rat.ofInt 1) (elapsedSecs (10000000000 - 0)))]
        else []) ++
       [("" ++ "numStats", Rat.ofInt 1), ("" ++ "metrics_received", Rat.ofInt 1)]) ∧
    (∀ pr ∈ flushBucketEmits ⟨"", [("90", 90)], false, false⟩ (10000000000 - 0)
        ⟨1, "ms", "timers.m", .timer [5]⟩,
      pr.1 ≠ "timers.m" ++ ".mean_" ++ "90" ∧
      pr.1 ≠ "timers.m" ++ ".sum_" ++ "90" ∧
      pr.1 ≠ "timers.m" ++ ".upper_" ++ "90") :=
  agg_timer_single_sample_stats ⟨"", [("90", 90)], false, false⟩ "m"
    "timers.m" 1 5 0 10000000000 1 "90" 90
    (by decide) (by decide) (by decide)

open Agg in
/-- Claim C1, counterexample to the claim as stated: a Timer bucket with
the single sample 5 is non-empty, percentile 90 is configured with
0 < 90 < 100, and its index 1 is positive, so the claim demands an
upper_90 statistic; the flush emits only the five base statistics and the
two summaries, with no upper_90 entry, because the source computes
percentiles only when the sample count exceeds one. -/
theorem agg_timer_percentile_cex :
    pctInc 1 90 = 1 ∧ (0 : Int) < pctInc 1 90 ∧
    (timer_event ⟨"", [("90", 90)], false, false⟩
        ⟨[("m", ⟨1, "ms", "timers.m", .timer [5]⟩)], 0, 1⟩ 10000000000).2 =
      [("timers.m.count", Rat.ofInt 1), ("timers.m.lower", 5),
       ("timers.m.upper", 5), ("timers.m.sum", 5), ("timers.m.mean", 5),
       ("numStats", Rat.ofInt 1), ("metrics_received", Rat.ofInt 1)] ∧
    ("timers.m.upper_90", (5 : ℚ)) ∉
      (timer_event ⟨"", [("90", 90)], false, false⟩
        ⟨[("m", ⟨1, "ms", "timers.m", .timer [5]⟩)], 0, 1⟩ 10000000000).2 := by
  decide

open Agg in
/-- Claim C1 (amended): for every Timer bucket with at least two samples
at an effective flush and every configured percentile p with 0 < p < 100,
writing ts for the ascending sort of the samples, cum for the
cumulative-sum array over ts and idx for count minus
floor(((100 - p) / 100) * count + 0.5), whenever idx is positive the
flush emits mean_p equal cum(idx)/idx, sum_p equal cum(idx) and upper_p
equal ts(idx) with one-based indexing; and for the samples 1 to 10 with
percentile 90 the flush emits upper_90 equal 9, count equal 10 and mean
equal 11/2. -/
theorem agg_timer_percentile_stats (cfg : AggConfig) (st : AggState)
    (ns : Int) (m : String) (b : Bucket) (samples : List ℚ) (s : String)
    (p : ℚ) (hmem : (m, b) ∈ st.buckets) (hmod : b.modifier = "ms")
    (hval : b.value = .timer samples) (hn : 2 ≤ samples.length)
    (hp : (s, p) ∈ cfg.percentiles) (hp0 : 0 < p) (hp1 : p < 100)
    (hns : ns ≠ st.lastTime) (hinc : 0 < pctInc samples.length p) :
    ((b.metric ++ ".mean_" ++ s,
       qDiv (get1 (cumVals (sortQ samples)) (pctInc samples.length p))
         (Rat.ofInt (pctInc samples.length p))) ∈ (timer_event cfg st ns).2 ∧
     (b.metric ++ ".sum_" ++ s,
       get1 (cumVals (sortQ samples)) (pctInc samples.length p)) ∈
         (timer_event cfg st ns).2 ∧
     (b.metric ++ ".upper_" ++ s,
       get1 (sortQ samples) (pctInc samples.length p)) ∈
         (timer_event cfg st ns).2) ∧
    (("timers.m.upper_90", (9 : ℚ)) ∈
      (timer_event ⟨"", [("90", 90)], false, false⟩
        ⟨[("m", ⟨1, "ms", "timers.m",
          .timer [1, 2, 3, 4, 5, 6, 7, 8, 9, 10]⟩)], 0, 10⟩ 10000000000).2 ∧
     ("timers.m.count", Rat.ofInt 10) ∈
      (timer_event ⟨"", [("90", 90)], false, false⟩
        ⟨[("m", ⟨1, "ms", "timers.m",
          .timer [1, 2, 3, 4, 5, 6, 7, 8, 9, 10]⟩)], 0, 10⟩ 10000000000).2 ∧
     ("timers.m.mean", mkRat 11 2) ∈
      (timer_event ⟨"", [("90", 90)], false, false⟩
        ⟨[("m", ⟨1, "ms", "timers.m",
          .timer [1, 2, 3, 4, 5, 6, 7, 8, 9, 10]⟩)], 0, 10⟩ 10000000000).2) := by
  constructor
  · have hflush : ∀ pr : String × ℚ,
        pr ∈ pctEmits b.metric samples.length (sortQ samples)
          (cumVals (sortQ samples)) (s, p) →
        pr ∈ flushBucketEmits cfg (ns - st.lastTime) b := by
      intro pr hpr
      have hguard : 1 < samples.length ∧ 0 < cfg.percentiles.length :=
        ⟨by omega, List.length_pos_of_mem hp⟩
      simp only [flushBucketEmits, hval]
      rw [if_pos hmod, if_pos (show 0 < samples.length by omega),
        if_pos hguard]
      exact List.mem_append_right _ (List.mem_flatMap_of_mem hp hpr)
    have h1 : (b.metric ++ ".mean_" ++ s,
        qDiv (get1 (cumVals (sortQ samples)) (pctInc samples.length p))
          (Rat.ofInt (pctInc samples.length p))) ∈
        pctEmits b.metric samples.length (sortQ samples)
          (cumVals (sortQ samples)) (s, p) := by
      simp only [pctEmits]
      rw [if_pos hinc]
      exact List.mem_cons_self _ _
    have h2 : (b.metric ++ ".sum_" ++ s,
        get1 (cumVals (sortQ samples)) (pctInc samples.length p)) ∈
        pctEmits b.metric samples.length (sortQ samples)
          (cumVals (sortQ samples)) (s, p) := by
      simp only [pctEmits]
      rw [if_pos hinc]
      exact List.mem_cons_of_mem _ (List.mem_cons_self _ _)
    have h3 : (b.metric ++ ".upper_" ++ s,
        get1 (sortQ samples) (pctInc samples.length p)) ∈
        pctEmits b.metric samples.length (sortQ samples)
          (cumVals (sortQ samples)) (s, p) := by
      simp only [pctEmits]
      rw [if_pos hinc]
      exact List.mem_cons_of_mem _
        (List.mem_cons_of_mem _ (List.mem_cons_self _ _))
    exact ⟨mem_timer_event_of_mem_bucket _ _ _ _ _ _ hmem hns (hflush _ h1),
      mem_timer_event_of_mem_bucket _ _ _ _ _ _ hmem hns (hflush _ h2),
      mem_timer_event_of_mem_bucket _ _ _ _ _ _ hmem hns (hflush _ h3)⟩
  · refine ⟨by decide, by decide, by decide⟩

open Agg in
/-- Witness for the amended claim C1 at the ten-sample bucket with
percentile 90: the three percentile statistics are all emitted. -/
theorem agg_timer_percentile_stats_witness :
    (("timers.m" ++ ".mean_" ++ "90",
       qDiv (get1 (cumVals (sortQ [1, 2, 3, 4, 5, 6, 7, 8, 9, 10]))
           (pctInc ([1, 2, 3, 4, 5, 6, 7, 8, 9, 10] : List ℚ).length 90))
         (Rat.ofInt (pctInc ([1, 2, 3, 4, 5, 6, 7, 8, 9, 10] : List ℚ).length 90))) ∈
       (timer_event ⟨"", [("90", 90)], false, false⟩
         ⟨[("m", ⟨1, "ms", "timers.m",
           .timer [1, 2, 3, 4, 5, 6, 7, 8, 9, 10]⟩)], 0, 10⟩ 10000000000).2 ∧
     ("timers.m" ++ ".sum_" ++ "90",
       get1 (cumVals (sortQ [1, 2, 3, 4, 5, 6, 7, 8, 9, 10]))
         (pctInc ([1, 2, 3, 4, 5, 6, 7, 8, 9, 10] : List ℚ).length 90)) ∈
       (timer_event ⟨"", [("90", 90)], false, false⟩
         ⟨[("m", ⟨1, "ms", "timers.m",
           .timer [1, 2, 3, 4, 5, 6, 7, 8, 9, 10]⟩)], 0, 10⟩ 10000000000).2 ∧
     ("timers.m" ++ ".upper_" ++ "90",
       get1 (sortQ [1, 2, 3, 4, 5, 6, 7, 8, 9, 10])
         (pctInc ([1, 2, 3, 4, 5, 6, 7, 8, 9, 10] : List ℚ).length 90)) ∈
       (timer_event ⟨"", [("90", 90)], false, false⟩
         ⟨[("m", ⟨1, "ms", "timers.m",
           .timer [1, 2, 3, 4, 5, 6, 7, 8, 9, 10]⟩)], 0, 10⟩ 10000000000).2) ∧
    (("timers.m.upper_90", (9 : ℚ)) ∈
      (timer_event ⟨"", [("90", 90)], false, false⟩
        ⟨[("m", ⟨1, "ms", "timers.m",
          .timer [1, 2, 3, 4, 5, 6, 7, 8, 9, 10]⟩)], 0, 10⟩ 10000000000).2 ∧
     ("timers.m.count", Rat.ofInt 10) ∈
      (timer_event ⟨"", [("90", 90)], false, false⟩
        ⟨[("m", ⟨1, "ms", "timers.m",
          .timer [1, 2, 3, 4, 5, 6, 7, 8, 9, 10]⟩)], 0, 10⟩ 10000000000).2 ∧
     ("timers.m.mean", mkRat 11 2) ∈
      (timer_event ⟨"", [("90", 90)], false, false⟩
        ⟨[("m", ⟨1, "ms", "timers.m",
          .timer [1, 2, 3, 4, 5, 6, 7, 8, 9, 10]⟩)], 0, 10⟩ 10000000000).2) :=
  agg_timer_percentile_stats ⟨"", [("90", 90)], false, false⟩
    ⟨[("m", ⟨1, "ms", "timers.m", .timer [1, 2, 3, 4, 5, 6, 7, 8, 9, 10]⟩)],
      0, 10⟩ 10000000000 "m"
    ⟨1, "ms", "timers.m", .timer [1, 2, 3, 4, 5, 6, 7, 8, 9, 10]⟩
    [1, 2, 3, 4, 5, 6, 7, 8, 9, 10] "90" 90
    (by decide) rfl rfl (by decide) (by decide) (by decide) (by decide)
    (by decide) (by decide)

open Codec in
/-- Claim C9, code_bug record: the OpenTSDB decoder is not total on lines
whose tag tokens lack an equals sign.  The line put m 3 4 notag passes the
length and three-token checks, its fourth token notag splits into a single
element, and the unconditional access of element 1 of that split is out of
range: the decode ends in the index panic rather than in a record or a
parse error. -/
theorem opentsdb_tag_split_panics :
    decodeOpenTSDB "" "put m 3 4 notag" = .indexPanic ∧
    (fieldsSplit (opentsdbLine "put m 3 4 notag")).length = 4 ∧
    (goSplitN "notag" '=' 2).length = 1 ∧
    decodeOpenTSDB "" "put m 3 4 notag" ≠ .parseErr := by
  decide

open Codec in
/-- Claim C7 (amended): the decoder returns a ParseError exactly when the
stripped line is at least 1024 bytes long, has fewer than three tokens,
has a non-integer timestamp token, or has a value token that parses
neither as integer nor as float; when no failure condition holds and
every tag token holds an equals sign it returns a record whose value is
the integer reading of the value token, falling back to float; and a
2000-byte line always fails. -/
theorem opentsdb_decode_error_conditions (tagPfx payload : String) :
    (decodeOpenTSDB tagPfx payload = .parseErr ↔ opentsdbFailCond payload) ∧
    (¬ opentsdbFailCond payload →
      (∀ t ∈ (fieldsSplit (opentsdbLine payload)).drop 3, '=' ∈ t.data) →
      ∃ r, decodeOpenTSDB tagPfx payload = .ok r ∧
        some r.value =
          tokValue ((fieldsSplit (opentsdbLine payload)).getD 2 "")) ∧
    decodeOpenTSDB tagPfx ⟨List.replicate 2000 'a'⟩ = .parseErr := by
  refine ⟨?_, ?_, ?_⟩
  · simp only [decodeOpenTSDB, opentsdbFailCond]
    by_cases h1 : 1024 ≤ (opentsdbLine payload).length
    · rw [if_pos h1]
      exact iff_of_true rfl (Or.inl h1)
    · rw [if_neg h1]
      by_cases h2 : (fieldsSplit (opentsdbLine payload)).length < 3
      · rw [if_pos h2]
        exact iff_of_true rfl (Or.inr (Or.inl h2))
      · rw [if_neg h2]
        cases h3 : goParseInt ((fieldsSplit (opentsdbLine payload)).getD 1 "") with
        | none => simp [h3]
        | some unixTime =>
          cases h4 : tokValue ((fieldsSplit (opentsdbLine payload)).getD 2 "") with
          | none => simp [h3, h4]
          | some v =>
            simp only [h3, h4]
            cases h5 : parseTags tagPfx
                ((fieldsSplit (opentsdbLine payload)).drop 3) with
            | none =>
              simp only [h5]
              exact iff_of_false (by simp) (by simp [h1, h2])
            | some tags =>
              simp only [h5]
              exact iff_of_false (by simp) (by simp [h1, h2])
  · intro hnf htags
    have h1 : ¬ 1024 ≤ (opentsdbLine payload).length :=
      fun h => hnf (Or.inl h)
    have h2 : ¬ (fieldsSplit (opentsdbLine payload)).length < 3 :=
      fun h => hnf (Or.inr (Or.inl h))
    obtain ⟨unixTime, h3⟩ : ∃ n,
        goParseInt ((fieldsSplit (opentsdbLine payload)).getD 1 "") = some n := by
      cases h : goParseInt ((fieldsSplit (opentsdbLine payload)).getD 1 "") with
      | none => exact absurd (Or.inr (Or.inr (Or.inl h))) hnf
      | some n => exact ⟨n, rfl⟩
    obtain ⟨v, h4⟩ : ∃ v,
        tokValue ((fieldsSplit (opentsdbLine payload)).getD 2 "") = some v := by
      cases h : tokValue ((fieldsSplit (opentsdbLine payload)).getD 2 "") with
      | none => exact absurd (Or.inr (Or.inr (Or.inr h))) hnf
      | some v => exact ⟨v, rfl⟩
    obtain ⟨tags, h5⟩ := (parseTags_some_iff tagPfx _).mpr htags
    refine ⟨⟨unixTime * 1000000000,
      (fieldsSplit (opentsdbLine payload)).getD 0 "", v, tags⟩, ?_, ?_⟩
    · simp only [decodeOpenTSDB]
      rw [if_neg h1, if_neg h2]
      simp only [h3, h4, h5]
    · rw [h4]
  · have hlen : 1024 ≤
        (opentsdbLine ⟨List.replicate 2000 'a'⟩).length := by
      rw [show (2000 : Nat) = 1999 + 1 from rfl, opentsdbLine_replicate_a]
      show 1024 ≤ (List.replicate (1999 + 1) 'a').length
      rw [List.length_replicate]
      omega
    simp only [decodeOpenTSDB]
    rw [if_pos hlen]

open Codec in
/-- Witness for claim C7 at concrete inputs: a non-integer timestamp
token produces a ParseError, and a fully well-formed line produces a
record with the integer-preferred value. -/
theorem opentsdb_decode_error_conditions_witness :
    decodeOpenTSDB "" "m x 2" = .parseErr ∧
    (∃ r, decodeOpenTSDB "" "put m 3 4 host=h" = .ok r ∧
      some r.value =
        tokValue ((fieldsSplit (opentsdbLine "put m 3 4 host=h")).getD 2 "")) := by
  constructor
  · exact (opentsdb_decode_error_conditions "" "m x 2").1.mpr (by decide)
  · exact (opentsdb_decode_error_conditions "" "put m 3 4 host=h").2.1
      (by decide) (by decide)

open Codec in
/-- Claim C7, counterexample to the claim as stated.  First part: the
line m 1 2 x satisfies none of the claimed failure conditions (phrased
with the strict 1024 reading of the claim), yet the decoder neither
fails with a ParseError nor returns a record: it panics on the tag token
without an equals sign.  Second part: a well-formed line of exactly 1024
bytes does not EXCEED the claimed 1024-byte bound, yet the decoder
rejects it, because the source tests len(line) greater or equal 1024. -/
theorem opentsdb_decode_claim_cex :
    (¬ opentsdbClaimFailCond "m 1 2 x" ∧
      decodeOpenTSDB "" "m 1 2 x" = .indexPanic ∧
      decodeOpenTSDB "" "m 1 2 x" ≠ .parseErr) ∧
    (¬ opentsdbClaimFailCond (⟨List.replicate 1020 'a'⟩ ++ " 1 2") ∧
      (opentsdbLine (⟨List.replicate 1020 'a'⟩ ++ " 1 2")).length = 1024 ∧
      decodeOpenTSDB "" (⟨List.replicate 1020 'a'⟩ ++ " 1 2") = .parseErr) := by
  decide

open Codec in
/-- Claim C8: the StatsD decoder returns a ParseError, and no record, on
every line without the colon separator, without the pipe separator after
the colon, whose value token fails to parse as a number, or whose
modifier segment is not exactly one of g, c, ms, s; and every decoded
record of a line without the at-sampling suffix carries sampling rate 1. -/
theorem statsd_decode_error_conditions (payload : String) :
    ((':' ∉ (trimNewlines payload).data) → decodeStatsD payload = none) ∧
    (('|' ∉ ((goSplitN (trimNewlines payload) ':' 2).getD 1 "").data) →
      decodeStatsD payload = none) ∧
    (goParseFloat ((goSplitN ((goSplitN (trimNewlines payload) ':' 2).getD 1 "")
        '|' 3).getD 0 "") = none → decodeStatsD payload = none) ∧
    (¬ ((goSplitN ((goSplitN (trimNewlines payload) ':' 2).getD 1 "")
          '|' 3).getD 1 "" = "g" ∨
        (goSplitN ((goSplitN (trimNewlines payload) ':' 2).getD 1 "")
          '|' 3).getD 1 "" = "c" ∨
        (goSplitN ((goSplitN (trimNewlines payload) ':' 2).getD 1 "")
          '|' 3).getD 1 "" = "ms" ∨
        (goSplitN ((goSplitN (trimNewlines payload) ':' 2).getD 1 "")
          '|' 3).getD 1 "" = "s") → decodeStatsD payload = none) ∧
    (∀ r, decodeStatsD payload = some r →
      ¬ ((goSplitN ((goSplitN (trimNewlines payload) ':' 2).getD 1 "")
            '|' 3).length = 3 ∧
         "@".data.isPrefixOf
           (((goSplitN ((goSplitN (trimNewlines payload) ':' 2).getD 1 "")
             '|' 3).getD 2 "").data) = true) →
      r.sampling = 1) := by
  refine ⟨?_, ?_, ?_, ?_, ?_⟩
  · intro h
    have hp : (goSplitN (trimNewlines payload) ':' 2).length = 1 := by
      rw [goSplitN_two_length, if_neg h]
    simp only [decodeStatsD]
    by_cases hz : (trimNewlines payload).length = 0
    · rw [if_pos hz]
    · rw [if_neg hz, if_pos (by rw [hp]; decide)]
  · intro h
    simp only [decodeStatsD]
    by_cases hz : (trimNewlines payload).length = 0
    · rw [if_pos hz]
    · rw [if_neg hz]
      by_cases hp2 : (goSplitN (trimNewlines payload) ':' 2).length ≠ 2
      · rw [if_pos hp2]
      · rw [if_neg hp2]
        have hr1 : (goSplitN ((goSplitN (trimNewlines payload) ':' 2).getD 1 "")
            '|' 3).length = 1 := by
          unfold goSplitN
          exact splitNAux_not_mem_length _ _ _ _ h
        rw [if_pos (by rw [hr1]; decide)]
  · intro h
    simp only [decodeStatsD]
    by_cases hz : (trimNewlines payload).length = 0
    · rw [if_pos hz]
    · rw [if_neg hz]
      by_cases hp2 : (goSplitN (trimNewlines payload) ':' 2).length ≠ 2
      · rw [if_pos hp2]
      · rw [if_neg hp2]
        by_cases hr2 : (goSplitN ((goSplitN (trimNewlines payload) ':' 2).getD 1 "")
            '|' 3).length < 2
        · rw [if_pos hr2]
        · rw [if_neg hr2]
          simp only [h]
  · intro h
    simp only [decodeStatsD]
    by_cases hz : (trimNewlines payload).length = 0
    · rw [if_pos hz]
    · rw [if_neg hz]
      by_cases hp2 : (goSplitN (trimNewlines payload) ':' 2).length ≠ 2
      · rw [if_pos hp2]
      · rw [if_neg hp2]
        by_cases hr2 : (goSplitN ((goSplitN (trimNewlines payload) ':' 2).getD 1 "")
            '|' 3).length < 2
        · rw [if_pos hr2]
        · rw [if_neg hr2]
          cases hv : goParseFloat ((goSplitN ((goSplitN (trimNewlines payload)
              ':' 2).getD 1 "") '|' 3).getD 0 "") with
          | none => simp only [hv]
          | some v =>
            simp only [hv]
            rw [if_neg h]
  · intro r hr hnot
    simp only [decodeStatsD] at hr
    by_cases hz : (trimNewlines payload).length = 0
    · rw [if_pos hz] at hr; exact Option.noConfusion hr
    · rw [if_neg hz] at hr
      by_cases hp2 : (goSplitN (trimNewlines payload) ':' 2).length ≠ 2
      · rw [if_pos hp2] at hr; exact Option.noConfusion hr
      · rw [if_neg hp2] at hr
        by_cases hr2 : (goSplitN ((goSplitN (trimNewlines payload) ':' 2).getD 1 "")
            '|' 3).length < 2
        · rw [if_pos hr2] at hr; exact Option.noConfusion hr
        · rw [if_neg hr2] at hr
          cases hv : goParseFloat ((goSplitN ((goSplitN (trimNewlines payload)
              ':' 2).getD 1 "") '|' 3).getD 0 "") with
          | none => rw [hv] at hr; exact Option.noConfusion hr
          | some v =>
            simp only [hv] at hr
            by_cases hmd : ((goSplitN ((goSplitN (trimNewlines payload)
                ':' 2).getD 1 "") '|' 3).getD 1 "" = "g" ∨
                (goSplitN ((goSplitN (trimNewlines payload)
                ':' 2).getD 1 "") '|' 3).getD 1 "" = "c" ∨
                (goSplitN ((goSplitN (trimNewlines payload)
                ':' 2).getD 1 "") '|' 3).getD 1 "" = "ms" ∨
                (goSplitN ((goSplitN (trimNewlines payload)
                ':' 2).getD 1 "") '|' 3).getD 1 "" = "s")
            · rw [if_pos hmd, if_neg hnot] at hr
              cases hr
              rfl
            · rw [if_neg hmd] at hr; exact Option.noConfusion hr

open Codec in
/-- Witness for claim C8: the line bad-line-no-colon fails, and the
decoded record of the at-free line a colon 1 pipe c has sampling 1. -/
theorem statsd_decode_error_conditions_witness :
    decodeStatsD "bad-line-no-colon" = none ∧
    (⟨"a", 1, "c", (1 : ℚ)⟩ : StatsdRec).sampling = 1 := by
  constructor
  · exact (statsd_decode_error_conditions "bad-line-no-colon").1 (by decide)
  · exact (statsd_decode_error_conditions "a:1|c").2.2.2.2
      ⟨"a", 1, "c", 1⟩ (by decide) (by decide)

open Dedupe in
/-- Claim C6: whenever the configured dedupe window is at or below zero,
process_message emits no record for any input, not even a pass-through
copy, and leaves the dedupe state untouched, because all emission and
bookkeeping live inside the window-enabled branch. -/
theorem dedupe_disabled_window_no_effect (cfg : DConfig) (st : DState)
    (m : DMsg) (h : cfg.dedupe_window ≤ 0) :
    process_message cfg st m = (st, []) := by
  unfold process_message
  rw [if_neg (by omega)]

open Dedupe in
/-- Witness for claim C6 at a concrete input. -/
theorem dedupe_disabled_window_no_effect_witness :
    process_message ⟨0, ["v"], none⟩ ⟨[], 0, 0⟩ (exMsg 5 5) =
      (⟨[], 0, 0⟩, []) :=
  dedupe_disabled_window_no_effect _ _ _ (by decide)

open Dedupe in
/-- Claim C2: when prior state exists for the key, every variant value of
the current record equals the stored value, and the timestamp delta is
inside the window, the filter emits nothing, stores the current message
and variant data while retaining the stored timestamp, marks the entry
skipped, increments the dedupe counter, and leaves the buffer size
unchanged. -/
theorem dedupe_suppress_updates_state (cfg : DConfig) (st : DState)
    (m : DMsg) (prev : DEntry)
    (hw : 0 < cfg.dedupe_window)
    (hprev : st.buffer.lookup (dedupeKey cfg m) = some prev)
    (hmatch : variantsMatch prev (variantsOf cfg m))
    (hwin : m.timestamp - prev.timestamp < cfg.dedupe_window * 1000000000) :
    (process_message cfg st m).2 = [] ∧
    (process_message cfg st m).1.buffer.lookup (dedupeKey cfg m) =
      some ⟨m, variantsOf cfg m, prev.timestamp, true⟩ ∧
    (process_message cfg st m).1.dedupe_count = st.dedupe_count + 1 ∧
    (process_message cfg st m).1.buffer_size = st.buffer_size := by
  unfold process_message
  rw [if_pos hw]
  simp only [hprev]
  rw [if_pos ⟨hmatch, hwin⟩]
  exact ⟨rfl, assocSet_lookup_self _ _ _, rfl, rfl⟩

open Dedupe in
/-- Witness for claim C2: the second identical point one second after the
first is suppressed and the stored timestamp stays at zero. -/
theorem dedupe_suppress_updates_state_witness :
    (process_message exCfg
        ⟨[("host=h", ⟨exMsg 0 5, [("v", .num 5)], 0, false⟩)], 0, 1⟩
        (exMsg 1000000000 5)).2 = [] ∧
    (process_message exCfg
        ⟨[("host=h", ⟨exMsg 0 5, [("v", .num 5)], 0, false⟩)], 0, 1⟩
        (exMsg 1000000000 5)).1.buffer.lookup
          (dedupeKey exCfg (exMsg 1000000000 5)) =
      some ⟨exMsg 1000000000 5, variantsOf exCfg (exMsg 1000000000 5), 0,
        true⟩ ∧
    (process_message exCfg
        ⟨[("host=h", ⟨exMsg 0 5, [("v", .num 5)], 0, false⟩)], 0, 1⟩
        (exMsg 1000000000 5)).1.dedupe_count = 0 + 1 ∧
    (process_message exCfg
        ⟨[("host=h", ⟨exMsg 0 5, [("v", .num 5)], 0, false⟩)], 0, 1⟩
        (exMsg 1000000000 5)).1.buffer_size = 1 :=
  dedupe_suppress_updates_state exCfg
    ⟨[("host=h", ⟨exMsg 0 5, [("v", .num 5)], 0, false⟩)], 0, 1⟩
    (exMsg 1000000000 5) ⟨exMsg 0 5, [("v", .num 5)], 0, false⟩
    (by decide) (by decide) (by decide) (by decide)

open Dedupe in
/-- Claim C3: when prior state exists and the record is not suppressed,
the previously withheld message is emitted first exactly when the stored
entry was marked skipped, followed by the current record, and the entry is
replaced by the current record with skipped false and the current
timestamp; moreover the concrete run with identical variant value 5 at
t equal 0, 1 and 2 seconds and a change to 6 at t equal 3 seconds under a
3 second window emits the t0 record, then the withheld t2 record followed
by the t3 record. -/
theorem dedupe_change_flushes_withheld (cfg : DConfig) (st : DState)
    (m : DMsg) (prev : DEntry)
    (hw : 0 < cfg.dedupe_window)
    (hprev : st.buffer.lookup (dedupeKey cfg m) = some prev)
    (hnot : ¬ (variantsMatch prev (variantsOf cfg m) ∧
      m.timestamp - prev.timestamp < cfg.dedupe_window * 1000000000)) :
    ((process_message cfg st m).2 =
      (if prev.skipped = true then [prev.message] else []) ++ [m] ∧
     (process_message cfg st m).1.buffer.lookup (dedupeKey cfg m) =
       some ⟨m, variantsOf cfg m, m.timestamp, false⟩ ∧
     (process_message cfg st m).1.dedupe_count = st.dedupe_count ∧
     (process_message cfg st m).1.buffer_size = st.buffer_size) ∧
    (runStream exCfg ⟨[], 0, 0⟩
        [exMsg 0 5, exMsg 1000000000 5, exMsg 2000000000 5,
         exMsg 3000000000 6]).2 =
      [exMsg 0 5, exMsg 2000000000 5, exMsg 3000000000 6] := by
  constructor
  · have hiff :
        ((¬ variantsMatch prev (variantsOf cfg m) ∧ prev.skipped = true) ∨
          (prev.skipped = true ∧
            cfg.dedupe_window * 1000000000 ≤
              m.timestamp - prev.timestamp)) ↔ prev.skipped = true := by
      constructor
      · rintro (⟨-, h⟩ | ⟨h, -⟩) <;> exact h
      · intro hs
        rcases not_and_or.mp hnot with h | h
        · exact Or.inl ⟨h, hs⟩
        · exact Or.inr ⟨hs, by omega⟩
    unfold process_message
    rw [if_pos hw]
    simp only [hprev]
    rw [if_neg hnot]
    simp only [hiff]
    exact ⟨by trivial, assocSet_lookup_self _ _ _, by trivial, by trivial⟩
  · decide

open Dedupe in
/-- Witness for claim C3 at the final step of the worked example: the
change to 6 at t equal 3 seconds flushes the withheld t2 message and then
the current one. -/
theorem dedupe_change_flushes_withheld_witness :
    ((process_message exCfg
        ⟨[("host=h", ⟨exMsg 2000000000 5, [("v", .num 5)], 0, true⟩)], 2, 1⟩
        (exMsg 3000000000 6)).2 =
      (if true = true then [exMsg 2000000000 5] else []) ++
        [exMsg 3000000000 6] ∧
     (process_message exCfg
        ⟨[("host=h", ⟨exMsg 2000000000 5, [("v", .num 5)], 0, true⟩)], 2, 1⟩
        (exMsg 3000000000 6)).1.buffer.lookup
          (dedupeKey exCfg (exMsg 3000000000 6)) =
       some ⟨exMsg 3000000000 6, variantsOf exCfg (exMsg 3000000000 6),
         3000000000, false⟩ ∧
     (process_message exCfg
        ⟨[("host=h", ⟨exMsg 2000000000 5, [("v", .num 5)], 0, true⟩)], 2, 1⟩
        (exMsg 3000000000 6)).1.dedupe_count = 2 ∧
     (process_message exCfg
        ⟨[("host=h", ⟨exMsg 2000000000 5, [("v", .num 5)], 0, true⟩)], 2, 1⟩
        (exMsg 3000000000 6)).1.buffer_size = 1) ∧
    (runStream exCfg ⟨[], 0, 0⟩
        [exMsg 0 5, exMsg 1000000000 5, exMsg 2000000000 5,
         exMsg 3000000000 6]).2 =
      [exMsg 0 5, exMsg 2000000000 5, exMsg 3000000000 6] :=
  dedupe_change_flushes_withheld exCfg
    ⟨[("host=h", ⟨exMsg 2000000000 5, [("v", .num 5)], 0, true⟩)], 2, 1⟩
    (exMsg 3000000000 6)
    ⟨exMsg 2000000000 5, [("v", .num 5)], 0, true⟩
    (by decide) (by decide) (by decide)

end Heka
